import Mathlib

/-!
Verification of the Medicaid frailty-bias microsimulation core.

Shallow embedding of the repository's simulation engine:
* `src/frailty_definitions/state_definitions.py` — the policy data model and
  the stringency score.
* `src/bias_analysis/algorithm_audit.py` — clinical eligibility, the
  stochastic exemption simulator, the Monte Carlo aggregator and the
  racial-gap decomposition.
* `src/bias_analysis/improved_algorithm.py` — the improved-definition builder.

Probabilities are embedded as exact rationals.  The numpy random stream
`np.random.default_rng(seed)` is embedded as an explicit function
`u : ℕ → ℚ` giving the successive uniform draws, threaded through the
computation by an index; `DataFrame.sample(..., random_state=42)` is embedded
as an explicit deterministic `sampler` function.  Both are deterministic
functions of the seed in the source, so they enter the embedding as ordinary
inputs.
-/

namespace MedicaidFrailty

unseal Rat.add Rat.mul Rat.sub Rat.inv

/-- The `ExparteDetermination` enum from `state_definitions.py`. -/
inductive ExparteDetermination where
  | FULL
  | PARTIAL
  | ACTIVE
  deriving DecidableEq, Repr

/-- The `ClaimsLag` enum from `state_definitions.py`. -/
inductive ClaimsLag where
  | SHORT
  | MEDIUM
  | LONG
  | UNKNOWN
  deriving DecidableEq, Repr

/-- The `FrailtyDefinition` dataclass from `state_definitions.py`.
Optional estimated percentages model the `Optional[float]` fields. -/
structure FrailtyDefinition where
  state_code : String
  state_name : String
  includes_smi : Bool := true
  includes_sed : Bool := true
  includes_sud : Bool := true
  includes_physical_disability : Bool := true
  includes_intellectual_disability : Bool := true
  includes_developmental_disability : Bool := true
  adl_threshold : ℕ := 1
  requires_prior_auth_record : Bool := false
  requires_physician_cert : Bool := false
  recognized_conditions : List String := []
  ex_parte_determination : ExparteDetermination := ExparteDetermination.PARTIAL
  primary_data_source : String := "MMIS claims"
  claims_lag : ClaimsLag := ClaimsLag.MEDIUM
  uses_ehr_data : Bool := false
  uses_hie : Bool := false
  uses_mds_data : Bool := false
  uses_claims_frailty_index : Bool := false
  estimated_exempt_pct : Option ℚ := none
  estimated_black_exempt_pct : Option ℚ := none
  estimated_white_exempt_pct : Option ℚ := none
  estimated_hispanic_exempt_pct : Option ℚ := none
  stringency_score : Option ℚ := none
  source_document : String := ""
  effective_date : String := ""
  notes : String := ""
  deriving DecidableEq, Repr

/-- One ACS survey respondent, as consumed by `algorithm_audit.py`:
a race/ethnicity label, the `PWGTP` population weight (`none` models a
missing/NaN weight, later `fillna(1)`-defaulted), and the binary disability
domain indicators `DPHY_bin`, `DREM_bin`, `DDRS_bin`, `DOUT_bin`,
`DEAR_bin`, `DEYE_bin`, `DIS_bin`. -/
structure Individual where
  race_eth : String
  pwgtp : Option ℚ := none
  dphy : Bool := false
  drem : Bool := false
  ddrs : Bool := false
  dout : Bool := false
  dear : Bool := false
  deye : Bool := false
  dis : Bool := false
  deriving DecidableEq, Repr

/-- A race → probability map (`P_DETECT`, `P_CERT` and their overrides). -/
abbrev ProbTable := List (String × ℚ)

/-- The `P_DETECT` table from `algorithm_audit.py`. -/
def P_DETECT : ProbTable :=
  [("white", 72/100), ("black", 58/100), ("hispanic", 61/100),
   ("asian", 69/100), ("other", 64/100)]

/-- The `P_DETECT_EXANTE_BONUS` map from `algorithm_audit.py`: a dict keyed by the
ex-parte mode, read with `.get(mode, 0.0)`; all three modes are present. -/
def P_DETECT_EXANTE_BONUS : ExparteDetermination → ℚ
  | ExparteDetermination.FULL => 12/100
  | ExparteDetermination.PARTIAL => 6/100
  | ExparteDetermination.ACTIVE => 0

/-- The `P_CERT` table from `algorithm_audit.py`. -/
def P_CERT : ProbTable :=
  [("white", 81/100), ("black", 64/100), ("hispanic", 67/100),
   ("asian", 76/100), ("other", 70/100)]

/-- Python `dict.get(key, default)` on a race → probability map. -/
def tableGet (t : ProbTable) (k : String) (d : ℚ) : ℚ :=
  (t.lookup k).getD d

/-- The `ACS_TO_ICD_PREFIXES` table from `algorithm_audit.py`: ACS disability domain →
ICD-10 prefix list (in the source's insertion order). -/
def ACS_TO_ICD_PREFIXES : List (String × List String) :=
  [("DPHY_bin", ["M", "G", "S", "T"]),
   ("DREM_bin", ["F2", "F3", "F4", "G30", "G31", "F7", "F8"]),
   ("DDRS_bin", ["M", "G", "I6", "Z74"]),
   ("DOUT_bin", ["Z74", "F", "G", "M", "I"]),
   ("DEAR_bin", ["H6", "H7", "H8", "H9"]),
   ("DEYE_bin", ["H0", "H1", "H2", "H3", "H4", "H5", "E10", "E11"])]

/-- The `ADL_DOMAINS` list from `algorithm_audit.py`. -/
def ADL_DOMAINS : List String :=
  ["DPHY_bin", "DDRS_bin", "DOUT_bin", "DREM_bin"]

/-- Python `individual.get(domain, 0) == 1` for a named ACS disability column. -/
def domainFlag (ind : Individual) : String → Bool
  | "DPHY_bin" => ind.dphy
  | "DREM_bin" => ind.drem
  | "DDRS_bin" => ind.ddrs
  | "DOUT_bin" => ind.dout
  | "DEAR_bin" => ind.dear
  | "DEYE_bin" => ind.deye
  | "DIS_bin" => ind.dis
  | _ => false

/-- Python `s.startswith(p)` on character lists: `leadsWith s p` holds when `p` is a
textual prefix of `s`. -/
def leadsWith : List Char → List Char → Bool
  | _, [] => true
  | [], _ :: _ => false
  | a :: as, b :: bs => a == b && leadsWith as bs

/-- Python `str.startswith`. -/
def pyStartsWith (s p : String) : Bool :=
  leadsWith s.data p.data

/-- Python `l.rstrip('-')` on character lists: drop every trailing `'-'`. -/
def rstripDashL : List Char → List Char
  | [] => []
  | c :: cs =>
    let r := rstripDashL cs
    if r = [] then (if c == '-' then [] else [c]) else c :: r

/-- Python `str.rstrip('-')`. -/
def rstripDash (s : String) : String :=
  String.mk (rstripDashL s.data)

/-- The prefix list associated to an ACS domain:
`ACS_TO_ICD_PREFIXES.get(acs_domain, [])`. -/
def prefixesOf (acs_domain : String) : List String :=
  ((ACS_TO_ICD_PREFIXES.lookup acs_domain).getD [])

/-- Function `_condition_covered` from `algorithm_audit.py`: some ICD-10 prefix of the
domain matches some recognized family, where a match is
`icd_family.startswith(prefix) or prefix.startswith(icd_family.rstrip('-'))`. -/
def _condition_covered (acs_domain : String) (recognized_conditions : List String) : Bool :=
  (prefixesOf acs_domain).any fun p =>
    recognized_conditions.any fun icd_family =>
      pyStartsWith icd_family p || pyStartsWith p (rstripDash icd_family)

/-- Function `compute_clinical_eligibility` from `algorithm_audit.py`. -/
def compute_clinical_eligibility (ind : Individual) (defn : FrailtyDefinition) : Bool :=
  let adl_count := (ADL_DOMAINS.map fun d => if domainFlag ind d then 1 else 0).sum
  if adl_count < defn.adl_threshold then false
  else if ACS_TO_ICD_PREFIXES.any
      (fun e => domainFlag ind e.1 && _condition_covered e.1 defn.recognized_conditions) then
    true
  else if ind.dis && decide (10 ≤ defn.recognized_conditions.length) then true
  else false

/-- The detection base rate used in step 2 of `simulate_exemption_single`:
`(p_detect_override or P_DETECT).get(race, P_DETECT.get('other', 0.64))`.
(An empty override dict is falsy in Python and falls back to `P_DETECT`;
looking a key up in an empty dict returns the default as well, so modelling
the override as an `Option` is observationally identical.) -/
def pDetUsed (p_detect_override : Option ProbTable) (race : String) : ℚ :=
  tableGet (p_detect_override.getD P_DETECT) race (tableGet P_DETECT "other" (64/100))

/-- The certification probability used in step 3 of `simulate_exemption_single`:
`(p_cert_override or P_CERT).get(race, P_CERT.get('other', 0.70))`. -/
def pCertUsed (p_cert_override : Option ProbTable) (race : String) : ℚ :=
  tableGet (p_cert_override.getD P_CERT) race (tableGet P_CERT "other" (70/100))

/-- The accumulated `exante_bonus` of `simulate_exemption_single`. -/
def exanteBonusOf (defn : FrailtyDefinition) : ℚ :=
  P_DETECT_EXANTE_BONUS defn.ex_parte_determination
    + (if defn.uses_hie then 4/100 else 0)
    + (if defn.uses_mds_data then 3/100 else 0)
    + (if defn.claims_lag = ClaimsLag.SHORT then 3/100 else 0)

/-- Function `simulate_exemption_single` from `algorithm_audit.py`.

The numpy generator is embedded as the stream `u : ℕ → ℚ` of successive
uniform draws together with the index `i` of the next unconsumed draw; the
result pairs the simulated exemption outcome with the updated index, so the
number of draws consumed is observable. -/
def simulate_exemption_single (ind : Individual) (defn : FrailtyDefinition)
    (u : ℕ → ℚ) (i : ℕ)
    (p_detect_override p_cert_override : Option ProbTable) : Bool × ℕ :=
  if compute_clinical_eligibility ind defn = true then
    let p_det_base := pDetUsed p_detect_override ind.race_eth
    let p_detect := min (p_det_base + exanteBonusOf defn) (98/100)
    if u i < p_detect then
      if defn.requires_physician_cert = true
          ∧ defn.ex_parte_determination = ExparteDetermination.ACTIVE then
        (decide (u (i+1) < pCertUsed p_cert_override ind.race_eth), i+2)
      else if defn.requires_physician_cert = true
          ∧ defn.ex_parte_determination = ExparteDetermination.PARTIAL then
        if u (i+1) < 1/2 then (true, i+2)
        else (decide (u (i+2) < pCertUsed p_cert_override ind.race_eth), i+3)
      else (true, i+1)
    else (false, i+1)
  else (false, i)

/-- Python `PWGTP.fillna(1)`: the population weight with missing values defaulted to 1. -/
def weightOf (ind : Individual) : ℚ :=
  ind.pwgtp.getD 1

/-- The inner `for j in range(n_sim)` loop of `run_monte_carlo`: `n` draws for
one individual, threading the random-stream index. -/
def drawLoop (ind : Individual) (defn : FrailtyDefinition) (u : ℕ → ℚ)
    (pdo pco : Option ProbTable) : ℕ → ℕ → List Bool × ℕ
  | 0, i => ([], i)
  | n + 1, i =>
    let r := simulate_exemption_single ind defn u i pdo pco
    let rest := drawLoop ind defn u pdo pco n r.2
    (r.1 :: rest.1, rest.2)

/-- One row of the `exempt_draws` matrix: eligibility is tested once and the
Monte Carlo loop is skipped entirely (all draws `false`) when ineligible. -/
def individualDraws (ind : Individual) (defn : FrailtyDefinition) (u : ℕ → ℚ)
    (pdo pco : Option ProbTable) (n_sim i : ℕ) : List Bool × ℕ :=
  if compute_clinical_eligibility ind defn = true then
    drawLoop ind defn u pdo pco n_sim i
  else (List.replicate n_sim false, i)

/-- The `exempt_draws` matrix for one race group, threading the stream index
across individuals in sample order. -/
def groupDraws (defn : FrailtyDefinition) (u : ℕ → ℚ)
    (pdo pco : Option ProbTable) (n_sim : ℕ) :
    List Individual → ℕ → List (List Bool) × ℕ
  | [], i => ([], i)
  | ind :: rest, i =>
    let r := individualDraws ind defn u pdo pco n_sim i
    let rr := groupDraws defn u pdo pco n_sim rest r.2
    (r.1 :: rr.1, rr.2)

/-- Python `(exempt_draws * weights[:, None]).sum(axis=0) / weights.sum()`:
the population-weighted exemption fraction for each simulation index. -/
def weightedExemptBySim (draws : List (List Bool)) (ws : List ℚ) (n_sim : ℕ) : List ℚ :=
  let W := ws.sum
  (List.range n_sim).map fun j =>
    ((draws.zip ws).map fun p => if p.1.getD j false then p.2 else 0).sum / W

/-- Arithmetic mean of a list of rationals (`ndarray.mean()`). -/
def listMean (l : List ℚ) : ℚ :=
  l.sum / l.length

/-- Insert into a ≤-sorted list of rationals. -/
def insertLeQ (x : ℚ) : List ℚ → List ℚ
  | [] => [x]
  | y :: ys => if x ≤ y then x :: y :: ys else y :: insertLeQ x ys

/-- Insertion sort for rationals (ascending), used by the percentile. -/
def sortQ : List ℚ → List ℚ
  | [] => []
  | x :: xs => insertLeQ x (sortQ xs)

/-- Numpy `np.percentile(l, q)` with the default linear-interpolation method. -/
def percentileQ (l : List ℚ) (q : ℚ) : ℚ :=
  let s := sortQ l
  let n := s.length
  if n = 0 then 0
  else
    let pos := q / 100 * ((n : ℚ) - 1)
    let k : ℕ := (⌊pos⌋).toNat
    let d := pos - (k : ℚ)
    let a := s.getD k 0
    let b := s.getD (k + 1) a
    a + d * (b - a)

/-- Python `<` on strings (code-point lexicographic), on character lists. -/
def charListLt : List Char → List Char → Bool
  | [], [] => false
  | [], _ :: _ => true
  | _ :: _, [] => false
  | a :: as, b :: bs =>
    if a.toNat < b.toNat then true
    else if b.toNat < a.toNat then false
    else charListLt as bs

/-- Insert into a sorted list of strings (ascending Python order). -/
def insertStr (x : String) : List String → List String
  | [] => [x]
  | y :: ys => if charListLt y.data x.data then y :: insertStr x ys else x :: y :: ys

/-- Sort a list of strings ascending, as `groupby` sorts its keys. -/
def sortStr : List String → List String
  | [] => []
  | x :: xs => insertStr x (sortStr xs)

/-- The sorted distinct race keys produced by `df.groupby('race_eth')`. -/
def racesOf (df : List Individual) : List String :=
  sortStr ((df.map (·.race_eth)).dedup)

/-- One output row of `run_monte_carlo`. -/
structure AggRow where
  state : String
  race_eth : String
  n_individuals : ℕ
  clinically_eligible_pct : ℚ
  simulated_exempt_pct : ℚ
  simulated_exempt_ci_lower : ℚ
  simulated_exempt_ci_upper : ℚ
  deriving DecidableEq, Repr

/-- One race group of the cohort and its (possibly subsampled) Monte Carlo
sample: `grp.sample(n=sample_n, random_state=42) if len(grp) > sample_n else
grp`. -/
def sampleOf (df : List Individual)
    (sampler : List Individual → ℕ → List Individual)
    (sample_n : ℕ) (race : String) : List Individual :=
  let grp := df.filter fun ind => ind.race_eth == race
  if sample_n < grp.length then sampler grp sample_n else grp

/-- The per-group body of `run_monte_carlo`, iterating over the sorted race
keys and threading the shared random-stream index from group to group. -/
def runMonteCarloAux (df : List Individual) (defn : FrailtyDefinition) (u : ℕ → ℚ)
    (sampler : List Individual → ℕ → List Individual)
    (n_sim : ℕ) (pdo pco : Option ProbTable) (sample_n : ℕ) :
    List String → ℕ → List AggRow
  | [], _ => []
  | race :: rest, i =>
    let sample := sampleOf df sampler sample_n race
    let gd := groupDraws defn u pdo pco n_sim sample i
    let ws := sample.map weightOf
    let exempt_by_sim := weightedExemptBySim gd.1 ws n_sim
    { state := defn.state_code
      race_eth := race
      n_individuals := sample.length
      clinically_eligible_pct :=
        ((sample.filter fun ind => compute_clinical_eligibility ind defn).length : ℚ)
          / (sample.length : ℚ) * 100
      simulated_exempt_pct := listMean exempt_by_sim * 100
      simulated_exempt_ci_lower := percentileQ exempt_by_sim (5/2) * 100
      simulated_exempt_ci_upper := percentileQ exempt_by_sim (195/2) * 100 } ::
    runMonteCarloAux df defn u sampler n_sim pdo pco sample_n rest gd.2

/-- Function `run_monte_carlo` from `algorithm_audit.py`.  `u` is the stream of the
internally created `np.random.default_rng(seed=42)` and `sampler` the
deterministic `DataFrame.sample(n, random_state=42)` subsampling, both
explicit inputs of the embedding. -/
def run_monte_carlo (df : List Individual) (defn : FrailtyDefinition) (u : ℕ → ℚ)
    (sampler : List Individual → ℕ → List Individual)
    (n_sim : ℕ) (pdo pco : Option ProbTable) (sample_n : ℕ) : List AggRow :=
  runMonteCarloAux df defn u sampler n_sim pdo pco sample_n (racesOf df) 0

/-- Round to the nearest integer, ties to even — Python's `round` semantics
(the scores rounded in the source are exact multiples of small powers of two
and twelfths, so the rational model of the float rounding is faithful). -/
def roundHalfEven (q : ℚ) : ℤ :=
  let f := ⌊q⌋
  let r := q - (f : ℚ)
  if r < 1/2 then f
  else if 1/2 < r then f + 1
  else if 2 ∣ f then f else f + 1

/-- Python `round(x, 1)`. -/
def round1 (q : ℚ) : ℚ :=
  (roundHalfEven (q * 10) : ℚ) / 10

/-- Python `round(x, 2)`. -/
def round2 (q : ℚ) : ℚ :=
  (roundHalfEven (q * 100) : ℚ) / 100

/-- First `simulated_exempt_pct` among the rows of one race
(`mc[mc['race_eth'] == race]['simulated_exempt_pct'].values[0]`); `none`
models the empty selection, which the source turns into `np.nan`. -/
def findPct (rows : List AggRow) (race : String) : Option ℚ :=
  (rows.find? fun row => row.race_eth == race).map (·.simulated_exempt_pct)

/-- The white − black gap `_gap` of `decompose_racial_gap`; `none` models the
`np.nan` returned when either race group is missing. -/
def gapOf (rows : List AggRow) : Option ℚ :=
  match findPct rows "black", findPct rows "white" with
  | some b, some w => some (w - b)
  | _, _ => none

/-- The `decompose_racial_gap` output record; `none` models `np.nan`. -/
structure DecompResult where
  state : String
  observed_gap_pp : Option ℚ
  algorithm_gap_pp : Option ℚ
  visibility_channel_pp : Option ℚ
  documentation_channel_pp : Option ℚ
  algorithm_pct_of_total : Option ℚ
  visibility_pct_of_total : Option ℚ
  documentation_pct_of_total : Option ℚ
  deriving DecidableEq, Repr

/-- Python dict comprehension over P_DETECT mapping every race to P_DETECT of white. -/
def p_det_equal : ProbTable :=
  P_DETECT.map fun p => (p.1, tableGet P_DETECT "white" 0)

/-- Python dict comprehension over P_CERT mapping every race to P_CERT of white. -/
def p_cert_equal : ProbTable :=
  P_CERT.map fun p => (p.1, tableGet P_CERT "white" 0)

/-- Python `round(a - b, 2)` with NaN propagation. -/
def sub2 (a b : Option ℚ) : Option ℚ :=
  match a, b with
  | some x, some y => some (round2 (x - y))
  | _, _ => none

/-- Function `decompose_racial_gap` from `algorithm_audit.py`.  Each of the four passes
calls `run_monte_carlo`, which recreates its own `default_rng(seed=42)` and
`random_state=42` sample, so all four passes see the same `u` and `sampler`. -/
def decompose_racial_gap (df : List Individual) (defn : FrailtyDefinition)
    (u : ℕ → ℚ) (sampler : List Individual → ℕ → List Individual)
    (n_sim sample_n : ℕ) : DecompResult :=
  let gap := fun (pdo pco : Option ProbTable) =>
    gapOf (run_monte_carlo df defn u sampler n_sim pdo pco sample_n)
  let observed_gap := gap none none
  let gap_no_visibility := gap (some p_det_equal) none
  let gap_no_cert := gap none (some p_cert_equal)
  let gap_algorithm_only := gap (some p_det_equal) (some p_cert_equal)
  { state := defn.state_code
    observed_gap_pp := observed_gap.map round2
    algorithm_gap_pp := gap_algorithm_only.map round2
    visibility_channel_pp := sub2 observed_gap gap_no_visibility
    documentation_channel_pp := sub2 observed_gap gap_no_cert
    algorithm_pct_of_total :=
      match observed_gap with
      | some og =>
        if 0 < og then gap_algorithm_only.map (fun g => round1 (g / og * 100)) else none
      | none => none
    visibility_pct_of_total :=
      match observed_gap with
      | some og =>
        if 0 < og then gap_no_visibility.map (fun g => round1 ((og - g) / og * 100)) else none
      | none => none
    documentation_pct_of_total :=
      match observed_gap with
      | some og =>
        if 0 < og then gap_no_cert.map (fun g => round1 ((og - g) / og * 100)) else none
      | none => none }

/-- Function `compute_stringency_score` from `state_definitions.py`, with the source's
sequential `score` updates rendered as a `let` chain. -/
def compute_stringency_score (defn : FrailtyDefinition) : ℚ :=
  let score : ℚ := 5
  let score := if 3 ≤ defn.adl_threshold then score - 2
    else if defn.adl_threshold = 2 then score - 1 else score
  let score := if defn.requires_physician_cert then score - 1 else score
  let score := if defn.requires_prior_auth_record then score - 1/2 else score
  let score := if defn.ex_parte_determination = ExparteDetermination.FULL then score + 3/2
    else if defn.ex_parte_determination = ExparteDetermination.PARTIAL then score + 0
    else score - 3/2
  let score := if defn.claims_lag = ClaimsLag.SHORT then score + 1
    else if defn.claims_lag = ClaimsLag.LONG then score - 1/2 else score
  let score := if defn.uses_hie then score + 1/2 else score
  let score := if defn.uses_ehr_data then score + 1/2 else score
  let score := if defn.uses_mds_data then score + 1/2 else score
  let breadth := min ((defn.recognized_conditions.length : ℚ) / 12) 1
  let score := score + breadth * 1
  let score := if defn.uses_claims_frailty_index && !defn.uses_hie then score - 1/2 else score
  round1 (max 0 (min 10 score))

/-- The California entry of `STATE_FRAILTY_DEFINITIONS` in
`state_definitions.py` (simulation-relevant fields verbatim). -/
def california : FrailtyDefinition :=
  { state_code := "CA"
    state_name := "California"
    adl_threshold := 1
    requires_physician_cert := false
    recognized_conditions :=
      ["F20-F29", "F30-F39", "F40-F48", "F10-F19",
       "C00-D49", "G10-G99", "M00-M99", "I00-I99",
       "J00-J99", "N00-N99", "E00-E90", "Z59", "Z60"]
    ex_parte_determination := ExparteDetermination.FULL
    primary_data_source := "CA DHCS MMIS + CalAIM ECM enrollment"
    claims_lag := ClaimsLag.SHORT
    uses_ehr_data := false
    uses_hie := true
    uses_mds_data := false
    estimated_exempt_pct := some (268/10)
    estimated_black_exempt_pct := some (251/10)
    estimated_white_exempt_pct := some (274/10)
    estimated_hispanic_exempt_pct := some (249/10)
    stringency_score := some (89/10)
    source_document := "CA DHCS CalAIM Implementation, 2022; Medi-Cal Work Req Response, 2024"
    effective_date := "pending_federal" }

/-- The `IMPROVED_ICD10_LIST` list from `improved_algorithm.py`. -/
def IMPROVED_ICD10_LIST : List String :=
  ["F20-F29", "F30-F39", "F40-F48", "F10-F19",
   "C00-D49", "G10-G99", "M00-M99", "I00-I99",
   "J00-J99", "N00-N99", "E00-E90", "Z59", "Z60"]

/-- Function `create_improved_definition` from `improved_algorithm.py`: a deep copy of
the base definition with the recognized conditions replaced by the
best-practice list, the ADL threshold forced to 1 and the physician
certification requirement dropped; all other fields keep the base values. -/
def create_improved_definition (base_defn : FrailtyDefinition) : FrailtyDefinition :=
  { base_defn with
    recognized_conditions := IMPROVED_ICD10_LIST
    adl_threshold := 1
    requires_physician_cert := false }

/-!
## Specification-side reference definitions

These restate the spec's natural-language descriptions (spec §4.1–§4.3) and
are compared with the source-translated definitions above by the refinement
theorems below.
-/

/-- Sum of exactly the four ADL-proximate indicators — ambulatory,
self-care, independent-living, cognitive — as spec §4.2(a) lists them. -/
def adlIndicatorSum (ind : Individual) : ℕ :=
  (if ind.dphy then 1 else 0) + (if ind.ddrs then 1 else 0)
    + (if ind.dout then 1 else 0) + (if ind.drem then 1 else 0)

/-- Spec §4.2(b) bidirectional prefix match: either string is a textual
prefix of the other, ignoring a trailing wildcard marker on the state
family. -/
def bidirMatchSpec (p fam : String) : Bool :=
  let f := rstripDashL fam.data
  leadsWith f p.data || leadsWith p.data f

/-- Spec §4.3 step 2 detection probability: per-race base rate plus the
ex-parte/HIE/MDS/claims-lag bonuses, capped at 0.98. -/
def specDetectionProb (defn : FrailtyDefinition) (pdo : Option ProbTable)
    (race : String) : ℚ :=
  min (pDetUsed pdo race
    + (if defn.ex_parte_determination = ExparteDetermination.FULL then 12/100
       else if defn.ex_parte_determination = ExparteDetermination.PARTIAL then 6/100
       else 0)
    + (if defn.uses_hie then 4/100 else 0)
    + (if defn.uses_mds_data then 3/100 else 0)
    + (if defn.claims_lag = ClaimsLag.SHORT then 3/100 else 0)) (98/100)

/-- Spec §4.3 state machine, written stage by stage as the spec phrases the
transition logic (terminate-false steps first). -/
def simulateOneSpec (ind : Individual) (defn : FrailtyDefinition)
    (u : ℕ → ℚ) (i : ℕ) (pdo pco : Option ProbTable) : Bool × ℕ :=
  if ¬ (compute_clinical_eligibility ind defn = true) then (false, i)
  else if ¬ (u i < specDetectionProb defn pdo ind.race_eth) then (false, i + 1)
  else if defn.requires_physician_cert = true
      ∧ defn.ex_parte_determination = ExparteDetermination.ACTIVE then
    (decide (u (i+1) < pCertUsed pco ind.race_eth), i + 2)
  else if defn.requires_physician_cert = true
      ∧ defn.ex_parte_determination = ExparteDetermination.PARTIAL then
    if u (i+1) < 1/2 then (true, i + 2)
    else (decide (u (i+2) < pCertUsed pco ind.race_eth), i + 3)
  else (true, i + 1)

/-- Spec §4.1 stringency rule written as one arithmetic expression. -/
def stringencyReference (d : FrailtyDefinition) : ℚ :=
  round1 (max 0 (min 10
    (5 - (if 3 ≤ d.adl_threshold then 2 else if d.adl_threshold = 2 then 1 else 0)
       - (if d.requires_physician_cert then 1 else 0)
       - (if d.requires_prior_auth_record then 1/2 else 0)
       + (if d.ex_parte_determination = ExparteDetermination.FULL then 3/2
          else if d.ex_parte_determination = ExparteDetermination.PARTIAL then 0
          else -(3/2))
       + (if d.claims_lag = ClaimsLag.SHORT then 1
          else if d.claims_lag = ClaimsLag.LONG then -(1/2) else 0)
       + (if d.uses_hie then 1/2 else 0)
       + (if d.uses_ehr_data then 1/2 else 0)
       + (if d.uses_mds_data then 1/2 else 0)
       + min ((d.recognized_conditions.length : ℚ) / 12) 1
       - (if d.uses_claims_frailty_index && !d.uses_hie then 1/2 else 0))))

/-- The domain keys of the fixed domain → prefix table. -/
def acsDomains : List String :=
  ACS_TO_ICD_PREFIXES.map Prod.fst

/-!
## Concrete inputs used by witnesses and counterexamples
-/

/-- An individual with only the hearing-domain flag (plus `DIS_bin`) set. -/
def hearingOnly : Individual :=
  { race_eth := "black", dear := true, dis := true }

/-- An ambulatory-limited individual with the any-disability flag set. -/
def ambulatoryDis : Individual :=
  { race_eth := "white", dphy := true, dis := true }

/-- The claimed C6 profile: California's fields with HIE, EHR and MDS all true. -/
def c6_profile : FrailtyDefinition :=
  { california with uses_ehr_data := true, uses_mds_data := true }

/-- A deterministic uniform stream used by concrete test runs. -/
def testU : ℕ → ℚ :=
  fun n => [6/10, 6/10, 9/10, 6/10, 7/10, 6/10].getD n 0

/-- A small test definition: ACTIVE ex parte, no certification, one
recognized musculoskeletal family. -/
def testDefn : FrailtyDefinition :=
  { state_code := "ZZ", state_name := "Test", adl_threshold := 1,
    recognized_conditions := ["M00-M99"],
    ex_parte_determination := ExparteDetermination.ACTIVE,
    claims_lag := ClaimsLag.MEDIUM }

/-- The test definition with physician certification required. -/
def testCertDefn : FrailtyDefinition :=
  { testDefn with requires_physician_cert := true }

/-- Black test individual with weight 1 and an ambulatory limitation. -/
def testIndB : Individual := { race_eth := "black", pwgtp := some 1, dphy := true }

/-- White test individual with weight 1 and an ambulatory limitation. -/
def testIndW : Individual := { race_eth := "white", pwgtp := some 1, dphy := true }

/-- Identity sampler (never invoked when the sample cap exceeds the group). -/
def testSampler : List Individual → ℕ → List Individual :=
  fun l _ => l

/-- Concrete decomposition run used by the C9 counterexample. -/
def res9 : DecompResult :=
  decompose_racial_gap [testIndB, testIndW] testDefn testU testSampler 3 5

/-- Lower and raised certification tables for the monotonicity witness. -/
def testCertLo : ProbTable := [("black", 1/2)]

/-- Raised certification table for the monotonicity witness. -/
def testCertHi : ProbTable := [("black", 3/4)]

/-!
## Helper lemmas
-/

lemma ite_sub_pull (c : Prop) [Decidable c] (x a : ℚ) :
    (if c then x - a else x) = x - (if c then a else 0) := by
  split_ifs <;> ring

lemma ite_add_pull (c : Prop) [Decidable c] (x a : ℚ) :
    (if c then x + a else x) = x + (if c then a else 0) := by
  split_ifs <;> ring

lemma ite2_sub_pull (c c' : Prop) [Decidable c] [Decidable c'] (x a b : ℚ) :
    (if c then x - a else if c' then x - b else x)
      = x - (if c then a else if c' then b else 0) := by
  split_ifs <;> ring

lemma ite2_addadd_sub_pull (c c' : Prop) [Decidable c] [Decidable c'] (x a b e : ℚ) :
    (if c then x + a else if c' then x + b else x - e)
      = x + (if c then a else if c' then b else -e) := by
  split_ifs <;> ring

lemma ite2_add_sub_pull (c c' : Prop) [Decidable c] [Decidable c'] (x a b : ℚ) :
    (if c then x + a else if c' then x - b else x)
      = x + (if c then a else if c' then -b else 0) := by
  split_ifs <;> ring

lemma roundHalfEven_nonneg (y : ℚ) (h : 0 ≤ y) : 0 ≤ roundHalfEven y := by
  have hf : 0 ≤ ⌊y⌋ := Int.floor_nonneg.mpr h
  simp only [roundHalfEven]
  split_ifs <;> omega

lemma roundHalfEven_le_hundred (y : ℚ) (h : y ≤ 100) : roundHalfEven y ≤ 100 := by
  have hf : ⌊y⌋ ≤ 100 := by
    have := Int.floor_le_floor h
    simpa using this
  have hfl : (⌊y⌋ : ℚ) ≤ y := Int.floor_le y
  simp only [roundHalfEven]
  split_ifs with h1 h2 h3
  · exact hf
  · -- half exceeded: y ≥ ⌊y⌋ + 1/2, so ⌊y⌋ ≤ 99
    have : (⌊y⌋ : ℚ) + 1/2 ≤ y := by linarith
    have h99 : ⌊y⌋ ≤ 99 := by
      by_contra hc
      push_neg at hc
      have : (100 : ℚ) ≤ (⌊y⌋ : ℚ) := by exact_mod_cast hc
      linarith
    omega
  · exact hf
  · have : (⌊y⌋ : ℚ) + 1/2 ≤ y := by linarith
    have h99 : ⌊y⌋ ≤ 99 := by
      by_contra hc
      push_neg at hc
      have : (100 : ℚ) ≤ (⌊y⌋ : ℚ) := by exact_mod_cast hc
      linarith
    omega

lemma round1_bounds (x : ℚ) (h0 : 0 ≤ x) (h1 : x ≤ 10) :
    0 ≤ round1 x ∧ round1 x ≤ 10 := by
  have hy0 : 0 ≤ x * 10 := by linarith
  have hy1 : x * 10 ≤ 100 := by linarith
  have r0 : 0 ≤ roundHalfEven (x * 10) := roundHalfEven_nonneg _ hy0
  have r1 : roundHalfEven (x * 10) ≤ 100 := roundHalfEven_le_hundred _ hy1
  have c0 : (0 : ℚ) ≤ (roundHalfEven (x * 10) : ℚ) := by exact_mod_cast r0
  have c1 : (roundHalfEven (x * 10) : ℚ) ≤ 100 := by exact_mod_cast r1
  unfold round1
  constructor
  · positivity
  · rw [div_le_iff₀ (by norm_num : (0:ℚ) < 10)]
    linarith

lemma clamp_bounds (s : ℚ) : 0 ≤ max 0 (min 10 s) ∧ max 0 (min 10 s) ≤ 10 := by
  refine ⟨le_max_left _ _, max_le (by norm_num) (min_le_left _ _)⟩

/-!
## C5 / C6: the stringency score
-/

lemma compute_stringency_score_eq_reference (d : FrailtyDefinition) :
    compute_stringency_score d = stringencyReference d := by
  simp only [compute_stringency_score, stringencyReference]
  refine congrArg round1 (congrArg (max 0) (congrArg (min 10) ?_))
  rw [ite_sub_pull, ite_add_pull, ite_add_pull, ite_add_pull, ite2_add_sub_pull,
    ite2_addadd_sub_pull, ite_sub_pull, ite_sub_pull, ite2_sub_pull]
  ring

/-- C5: `compute_stringency` equals the reference rule — start at 5.0, apply
the ADL-threshold, documentation, ex-parte, claims-lag, integration,
condition-breadth and CFI adjustments, clamp to [0,10], round to one
decimal — and consequently its value always lies in [0,10]. -/
theorem c5_stringency_matches_reference (d : FrailtyDefinition) :
    compute_stringency_score d = stringencyReference d
      ∧ 0 ≤ compute_stringency_score d ∧ compute_stringency_score d ≤ 10 := by
  have heq := compute_stringency_score_eq_reference d
  refine ⟨heq, ?_, ?_⟩ <;> rw [heq] <;> unfold stringencyReference
  · exact (round1_bounds _ (clamp_bounds _).1 (clamp_bounds _).2).1
  · exact (round1_bounds _ (clamp_bounds _).1 (clamp_bounds _).2).2

/-- C6 counterexample: the profile described by the claim (HIE, EHR and MDS
all true) does score 10.0, but it does not match California's catalog entry,
which has `uses_ehr_data = False` and `uses_mds_data = False`. -/
theorem c6_counterexample :
    compute_stringency_score c6_profile = 10
      ∧ c6_profile.uses_ehr_data = true ∧ c6_profile.uses_mds_data = true
      ∧ california.uses_ehr_data = false ∧ california.uses_mds_data = false
      ∧ c6_profile ≠ california := by
  decide

/-- C6 amended: the stated profile (ADL threshold 1, no certification, no
prior auth, FULL ex parte, SHORT lag, HIE+EHR+MDS, 13 families, no CFI)
scores 10.0, but California's catalog entry has HIE only (no EHR, no MDS)
and computes to 9.0. -/
theorem c6_amended :
    compute_stringency_score c6_profile = 10
      ∧ california.uses_hie = true
      ∧ california.uses_ehr_data = false ∧ california.uses_mds_data = false
      ∧ california.recognized_conditions.length = 13
      ∧ compute_stringency_score california = 9 := by
  decide

/-!
## C8: the improved-definition builder
-/

/-- C8: `synthesize` (`create_improved_definition`) replaces the recognized
conditions with the fixed 13-family best-practice list, forces the ADL
threshold to 1 and drops the physician-certification requirement, while every
other field keeps the base definition's value.  (In this pure embedding the
base value is immutable and the result shares no mutable state with it, which
is what the source's deep copy establishes.) -/
theorem c8_improved_definition_fields (base : FrailtyDefinition) :
    (create_improved_definition base).recognized_conditions = IMPROVED_ICD10_LIST
      ∧ IMPROVED_ICD10_LIST.length = 13
      ∧ (create_improved_definition base).adl_threshold = 1
      ∧ (create_improved_definition base).requires_physician_cert = false
      ∧ (create_improved_definition base).ex_parte_determination = base.ex_parte_determination
      ∧ (create_improved_definition base).uses_hie = base.uses_hie
      ∧ (create_improved_definition base).uses_mds_data = base.uses_mds_data
      ∧ (create_improved_definition base).claims_lag = base.claims_lag
      ∧ (create_improved_definition base).uses_ehr_data = base.uses_ehr_data
      ∧ (create_improved_definition base).uses_claims_frailty_index
          = base.uses_claims_frailty_index
      ∧ (create_improved_definition base).requires_prior_auth_record
          = base.requires_prior_auth_record
      ∧ (create_improved_definition base).state_code = base.state_code
      ∧ (create_improved_definition base).state_name = base.state_name
      ∧ (create_improved_definition base).primary_data_source = base.primary_data_source
      ∧ (create_improved_definition base).includes_smi = base.includes_smi
      ∧ (create_improved_definition base).includes_sed = base.includes_sed
      ∧ (create_improved_definition base).includes_sud = base.includes_sud
      ∧ (create_improved_definition base).includes_physical_disability
          = base.includes_physical_disability
      ∧ (create_improved_definition base).includes_intellectual_disability
          = base.includes_intellectual_disability
      ∧ (create_improved_definition base).includes_developmental_disability
          = base.includes_developmental_disability
      ∧ (create_improved_definition base).estimated_exempt_pct = base.estimated_exempt_pct
      ∧ (create_improved_definition base).estimated_black_exempt_pct
          = base.estimated_black_exempt_pct
      ∧ (create_improved_definition base).estimated_white_exempt_pct
          = base.estimated_white_exempt_pct
      ∧ (create_improved_definition base).estimated_hispanic_exempt_pct
          = base.estimated_hispanic_exempt_pct
      ∧ (create_improved_definition base).stringency_score = base.stringency_score
      ∧ (create_improved_definition base).source_document = base.source_document
      ∧ (create_improved_definition base).effective_date = base.effective_date
      ∧ (create_improved_definition base).notes = base.notes := by
  refine ⟨rfl, by decide, rfl, rfl, rfl, rfl, rfl, rfl, rfl, rfl, rfl, rfl, rfl,
    rfl, rfl, rfl, rfl, rfl, rfl, rfl, rfl, rfl, rfl, rfl, rfl, rfl, rfl, rfl⟩

/-!
## C10: override fallback to the global default table
-/

/-- C10: when an override map is supplied to `simulate_one` but does not
contain the individual's race label, the probability used is the global
default table's `'other'` entry — `P_DETECT['other'] = 0.64` for detection,
`P_CERT['other'] = 0.70` for certification — regardless of the override map's
own contents (in particular, its own `'other'` entry is never consulted). -/
theorem c10_override_fallback (ovd ovc : ProbTable) (race : String)
    (h1 : ovd.lookup race = none) (h2 : ovc.lookup race = none) :
    pDetUsed (some ovd) race = 64/100 ∧ pCertUsed (some ovc) race = 70/100 := by
  constructor
  · simp only [pDetUsed, tableGet, Option.getD_some, h1, Option.getD_none]
    decide
  · simp only [pCertUsed, tableGet, Option.getD_some, h2, Option.getD_none]
    decide

/-- C10 witness: the equalized decomposition tables do not contain the race
label `"aian"`, so even under the detection-equalized pass that race is
simulated at 0.64 — the global `'other'` rate — not at the equalized 0.72
(nor at any `'other'` entry of the override itself). -/
theorem c10_override_fallback_witness :
    p_det_equal.lookup "aian" = none
      ∧ p_cert_equal.lookup "aian" = none
      ∧ pDetUsed (some p_det_equal) "aian" = 64/100
      ∧ pCertUsed (some p_cert_equal) "aian" = 70/100
      ∧ tableGet p_det_equal "other" 0 = 72/100
      ∧ ¬ (64/100 : ℚ) = 72/100 := by
  refine ⟨by decide, by decide, ?_, ?_, by decide, by decide⟩
  · exact (c10_override_fallback p_det_equal p_cert_equal "aian"
      (by decide) (by decide)).1
  · exact (c10_override_fallback p_det_equal p_cert_equal "aian"
      (by decide) (by decide)).2

/-!
## C4: determinism of the Monte Carlo aggregator
-/

/-- C4: the Monte Carlo aggregator is deterministic — two invocations of
`run` on identical inputs (individuals, definition, seeded stream and
sampler, draw count, overrides, per-race sample cap) produce identical
output tables.  The seeded generators are explicit inputs of the embedding
because they are fixed deterministic functions of the seed in the source. -/
theorem c4_run_monte_carlo_deterministic
    (df df' : List Individual) (defn defn' : FrailtyDefinition)
    (u u' : ℕ → ℚ) (sampler sampler' : List Individual → ℕ → List Individual)
    (n_sim n_sim' : ℕ) (pdo pdo' pco pco' : Option ProbTable)
    (sample_n sample_n' : ℕ)
    (h : df = df' ∧ defn = defn' ∧ u = u' ∧ sampler = sampler'
      ∧ n_sim = n_sim' ∧ pdo = pdo' ∧ pco = pco' ∧ sample_n = sample_n') :
    run_monte_carlo df defn u sampler n_sim pdo pco sample_n
      = run_monte_carlo df' defn' u' sampler' n_sim' pdo' pco' sample_n' := by
  obtain ⟨rfl, rfl, rfl, rfl, rfl, rfl, rfl, rfl⟩ := h
  rfl

/-- C4 witness: a concrete pair of invocations on identical inputs. -/
theorem c4_run_monte_carlo_deterministic_witness :
    run_monte_carlo [testIndB, testIndW] testDefn testU testSampler 3 none none 5
      = run_monte_carlo [testIndB, testIndW] testDefn testU testSampler 3 none none 5 :=
  c4_run_monte_carlo_deterministic _ _ _ _ _ _ _ _ _ _ _ _ _ _ _ _
    ⟨rfl, rfl, rfl, rfl, rfl, rfl, rfl, rfl⟩

/-!
## C3: the broad-qualification carve-out and the ADL gate
-/

/-- C3 counterexample: California recognizes 13 ≥ 10 condition families and
`hearingOnly` has the any-disability indicator set, yet it is **not**
clinically eligible, because its ADL-proximate count 0 fails the ADL
threshold check that runs before the carve-out. -/
theorem c3_counterexample :
    10 ≤ california.recognized_conditions.length
      ∧ hearingOnly.dis = true
      ∧ hearingOnly.dear = true
      ∧ adlIndicatorSum hearingOnly = 0
      ∧ compute_clinical_eligibility hearingOnly california = false := by
  decide

/-!
## Prefix-match lemmas for clinical eligibility (C2/C3)
-/

lemma leadsWith_nil_true : ∀ a : List Char, leadsWith a [] = true := by
  intro a; cases a <;> rfl

lemma leadsWith_trans : ∀ a b c : List Char,
    leadsWith a b = true → leadsWith b c = true → leadsWith a c = true := by
  intro a
  induction a with
  | nil =>
    intro b c hab hbc
    cases b with
    | nil => exact hbc
    | cons x xs => simp [leadsWith] at hab
  | cons x xs ih =>
    intro b c hab hbc
    cases c with
    | nil => exact leadsWith_nil_true _
    | cons z zs =>
      cases b with
      | nil => simp [leadsWith] at hbc
      | cons y ys =>
        simp only [leadsWith, Bool.and_eq_true, beq_iff_eq] at hab hbc ⊢
        exact ⟨hab.1.trans hbc.1, ih ys zs hab.2 hbc.2⟩

lemma leadsWith_total : ∀ s p q : List Char,
    leadsWith s p = true → leadsWith s q = true →
    leadsWith p q = true ∨ leadsWith q p = true := by
  intro s
  induction s with
  | nil =>
    intro p q hp _
    cases p with
    | nil => exact Or.inr (leadsWith_nil_true _)
    | cons x xs => simp [leadsWith] at hp
  | cons a as ih =>
    intro p q hp hq
    cases p with
    | nil => exact Or.inr (leadsWith_nil_true _)
    | cons x xs =>
      cases q with
      | nil => exact Or.inl (leadsWith_nil_true _)
      | cons y ys =>
        simp only [leadsWith, Bool.and_eq_true, beq_iff_eq] at hp hq ⊢
        rcases ih xs ys hp.2 hq.2 with h | h
        · exact Or.inl ⟨hp.1.symm.trans hq.1, h⟩
        · exact Or.inr ⟨hq.1.symm.trans hp.1, h⟩

lemma leadsWith_rstripDashL : ∀ l : List Char, leadsWith l (rstripDashL l) = true := by
  intro l
  induction l with
  | nil => rfl
  | cons c cs ih =>
    simp only [rstripDashL]
    by_cases hr : rstripDashL cs = []
    · by_cases hc : (c == '-') = true
      · simp [hr, hc, leadsWith_nil_true]
      · simp [hr, hc, leadsWith]
    · simp only [hr, if_neg hr, leadsWith, Bool.and_eq_true, beq_iff_eq]
      exact ⟨trivial, ih⟩

/-- The source's asymmetric match
`fam.startswith(p) or p.startswith(fam.rstrip('-'))` coincides with the
spec's symmetric bidirectional match on the wildcard-stripped family. -/
lemma codeMatch_eq_bidirMatchSpec (icd_family p : String) :
    (pyStartsWith icd_family p || pyStartsWith p (rstripDash icd_family))
      = bidirMatchSpec p icd_family := by
  simp only [pyStartsWith, rstripDash, bidirMatchSpec]
  cases h2 : leadsWith p.data (rstripDashL icd_family.data) with
  | true => simp [h2]
  | false =>
    simp only [h2, Bool.or_false]
    cases h3 : leadsWith (rstripDashL icd_family.data) p.data with
    | true =>
      exact leadsWith_trans _ _ _ (leadsWith_rstripDashL icd_family.data) h3
    | false =>
      cases h4 : leadsWith icd_family.data p.data with
      | false => rfl
      | true =>
        rcases leadsWith_total icd_family.data p.data (rstripDashL icd_family.data)
          h4 (leadsWith_rstripDashL icd_family.data) with h | h
        · rw [h2] at h; exact absurd h (by simp)
        · rw [h3] at h; exact absurd h (by simp)

lemma adl_count_eq (ind : Individual) :
    (ADL_DOMAINS.map fun d => if domainFlag ind d then 1 else 0).sum
      = adlIndicatorSum ind := by
  simp only [ADL_DOMAINS, domainFlag, List.map_cons, List.map_nil, List.sum_cons,
    List.sum_nil, adlIndicatorSum]
  omega

lemma prefixesOf_entries :
    ∀ e ∈ ACS_TO_ICD_PREFIXES, prefixesOf e.1 = e.2 := by
  decide

/-- Characterization of `compute_clinical_eligibility`: true iff the
ADL-proximate disability count meets the threshold, and either some
positively reported domain has a prefix that bidirectionally matches a
recognized family, or the broad-qualification carve-out fires. -/
lemma clinical_eligibility_iff (ind : Individual) (defn : FrailtyDefinition) :
    compute_clinical_eligibility ind defn = true ↔
      (defn.adl_threshold ≤ adlIndicatorSum ind
        ∧ ((∃ d ∈ acsDomains, domainFlag ind d = true
              ∧ ∃ p ∈ prefixesOf d, ∃ fam ∈ defn.recognized_conditions,
                  bidirMatchSpec p fam = true)
            ∨ (ind.dis = true ∧ 10 ≤ defn.recognized_conditions.length))) := by
  simp only [compute_clinical_eligibility, adl_count_eq]
  by_cases hadl : adlIndicatorSum ind < defn.adl_threshold
  · simp only [if_pos hadl]
    constructor
    · intro h; exact absurd h (by simp)
    · rintro ⟨h1, -⟩; omega
  · simp only [if_neg hadl]
    have hadl' : defn.adl_threshold ≤ adlIndicatorSum ind := Nat.le_of_not_lt hadl
    by_cases hany : ACS_TO_ICD_PREFIXES.any
        (fun e => domainFlag ind e.1 && _condition_covered e.1 defn.recognized_conditions)
        = true
    · simp only [if_pos hany, true_iff]
      refine ⟨hadl', Or.inl ?_⟩
      simp only [List.any_eq_true, Bool.and_eq_true] at hany
      obtain ⟨e, he, hflag, hcov⟩ := hany
      simp only [_condition_covered, List.any_eq_true, codeMatch_eq_bidirMatchSpec] at hcov
      obtain ⟨p, hp, fam, hfam, hm⟩ := hcov
      exact ⟨e.1, List.mem_map_of_mem Prod.fst he, hflag, p, hp, fam, hfam, hm⟩
    · simp only [if_neg hany]
      by_cases hdis : (ind.dis && decide (10 ≤ defn.recognized_conditions.length)) = true
      · simp only [if_pos hdis, true_iff]
        simp only [Bool.and_eq_true, decide_eq_true_iff] at hdis
        exact ⟨hadl', Or.inr hdis⟩
      · simp only [if_neg hdis]
        constructor
        · intro h; exact absurd h (by simp)
        · rintro ⟨-, hmatch | hcarve⟩
          · exfalso
            apply hany
            obtain ⟨d, hd, hflag, p, hp, fam, hfam, hm⟩ := hmatch
            simp only [acsDomains, List.mem_map] at hd
            obtain ⟨e, he, rfl⟩ := hd
            simp only [List.any_eq_true, Bool.and_eq_true]
            refine ⟨e, he, hflag, ?_⟩
            simp only [_condition_covered, List.any_eq_true, codeMatch_eq_bidirMatchSpec]
            exact ⟨p, hp, fam, hfam, hm⟩
          · exfalso
            apply hdis
            simp only [Bool.and_eq_true, decide_eq_true_iff]
            exact hcarve

/-- C2: `is_clinically_eligible` is deterministic and returns true iff the
sum of exactly the four ADL-proximate indicators meets the ADL threshold and
either a positively reported domain's associated prefix matches a recognized
condition family under the bidirectional wildcard-stripped prefix match, or
the any-disability / ≥10-family broad-qualification carve-out applies. -/
theorem c2_clinical_eligibility_characterization (ind : Individual)
    (defn : FrailtyDefinition) :
    compute_clinical_eligibility ind defn = true ↔
      (defn.adl_threshold ≤ adlIndicatorSum ind
        ∧ ((∃ d ∈ acsDomains, domainFlag ind d = true
              ∧ ∃ p ∈ prefixesOf d, ∃ fam ∈ defn.recognized_conditions,
                  bidirMatchSpec p fam = true)
            ∨ (ind.dis = true ∧ 10 ≤ defn.recognized_conditions.length))) :=
  clinical_eligibility_iff ind defn

/-- C3 amended: for a definition with at least 10 recognized condition
families, an individual with the any-disability indicator set is clinically
eligible **provided it also meets the ADL threshold**, even when no
domain-specific prefix matches any recognized family. -/
theorem c3_amended_carveout (ind : Individual) (defn : FrailtyDefinition)
    (h10 : 10 ≤ defn.recognized_conditions.length)
    (hdis : ind.dis = true)
    (hadl : defn.adl_threshold ≤ adlIndicatorSum ind) :
    compute_clinical_eligibility ind defn = true :=
  (clinical_eligibility_iff ind defn).mpr ⟨hadl, Or.inr ⟨hdis, h10⟩⟩

/-- C3 amended witness: an ambulatory-limited individual with the
any-disability flag meets California's threshold-1 ADL gate and is eligible
through the carve-out. -/
theorem c3_amended_carveout_witness :
    10 ≤ california.recognized_conditions.length
      ∧ ambulatoryDis.dis = true
      ∧ california.adl_threshold ≤ adlIndicatorSum ambulatoryDis
      ∧ compute_clinical_eligibility ambulatoryDis california = true :=
  ⟨by decide, by decide, by decide,
    c3_amended_carveout ambulatoryDis california (by decide) (by decide) (by decide)⟩

/-!
## C1: the three-stage exemption simulator
-/

lemma specDetectionProb_eq (defn : FrailtyDefinition) (pdo : Option ProbTable)
    (race : String) :
    specDetectionProb defn pdo race
      = min (pDetUsed pdo race + exanteBonusOf defn) (98/100) := by
  simp only [specDetectionProb, exanteBonusOf]
  cases h : defn.ex_parte_determination <;>
    simp only [h, P_DETECT_EXANTE_BONUS, reduceCtorEq, reduceIte] <;>
    first
      | rfl
      | (congr 1; ring)

/-- C1: `simulate_one` follows the spec's three-stage transition logic
exactly: immediate false with zero draws consumed when not clinically
eligible; otherwise one uniform draw against the per-race detection
probability (base rate or override with fallback to the default `'other'`
rate, plus the FULL +0.12 / PARTIAL +0.06 / ACTIVE +0.00 ex-parte bonus,
+0.04 HIE, +0.03 MDS, +0.03 SHORT lag, capped at 0.98), terminating false
when the draw is not strictly below it; then a certification draw when
certification is required under ACTIVE mode, a 50/50 auto-detection split
(second draw consumed only on the cert path) under PARTIAL mode, and
immediate exemption otherwise. -/
theorem c1_simulate_matches_spec (ind : Individual) (defn : FrailtyDefinition)
    (u : ℕ → ℚ) (i : ℕ) (pdo pco : Option ProbTable) :
    simulate_exemption_single ind defn u i pdo pco
      = simulateOneSpec ind defn u i pdo pco := by
  by_cases h1 : compute_clinical_eligibility ind defn = true
  · by_cases h2 : u i < min (pDetUsed pdo ind.race_eth + exanteBonusOf defn) (98/100)
    · simp [simulate_exemption_single, simulateOneSpec, specDetectionProb_eq, h1, h2]
    · simp [simulate_exemption_single, simulateOneSpec, specDetectionProb_eq, h1, h2]
  · simp [simulate_exemption_single, simulateOneSpec, h1]

/-!
## C9: percent-of-total fields of the racial-gap decomposition
-/

/-- C9 counterexample: a concrete decomposition run with observed gap
100 > 0 whose algorithm percent-of-total field is 33.3 — the value rounded
to one decimal — which differs from `channel / observed_gap * 100` both for
the reported (2-decimal-rounded) channel 33.33 and for the raw channel
100/3.  The claim's exact-quotient reading therefore fails. -/
theorem c9_counterexample :
    res9.observed_gap_pp = some 100
      ∧ res9.algorithm_gap_pp = some (3333/100)
      ∧ res9.algorithm_pct_of_total = some (333/10)
      ∧ ¬ (333/10 : ℚ) = 3333/100 / 100 * 100
      ∧ gapOf (run_monte_carlo [testIndB, testIndW] testDefn testU testSampler 3
          (some p_det_equal) (some p_cert_equal) 5) = some (100/3)
      ∧ ¬ (333/10 : ℚ) = 100/3 / 100 * 100 := by
  decide

/-- C9 amended: whenever the observed gap is ≤ 0 (or undefined), every
percent-of-total field is reported as not-a-number (`none`), never a
divide-by-zero failure and never a silent 0%; whenever the observed gap is
positive, each percent-of-total field equals the corresponding channel
divided by the observed gap times 100, **rounded half-to-even to one
decimal place**. -/
theorem c9_amended_pct_fields (df : List Individual) (defn : FrailtyDefinition)
    (u : ℕ → ℚ) (sampler : List Individual → ℕ → List Individual)
    (n_sim sample_n : ℕ) :
    (∀ og, gapOf (run_monte_carlo df defn u sampler n_sim none none sample_n) = some og →
      ((og ≤ 0 →
          (decompose_racial_gap df defn u sampler n_sim sample_n).algorithm_pct_of_total
              = none
            ∧ (decompose_racial_gap df defn u sampler n_sim sample_n).visibility_pct_of_total
              = none
            ∧ (decompose_racial_gap df defn u sampler n_sim
                sample_n).documentation_pct_of_total = none)
        ∧ (0 < og →
          (decompose_racial_gap df defn u sampler n_sim sample_n).algorithm_pct_of_total
              = (gapOf (run_monte_carlo df defn u sampler n_sim
                  (some p_det_equal) (some p_cert_equal) sample_n)).map
                  (fun g => round1 (g / og * 100))
            ∧ (decompose_racial_gap df defn u sampler n_sim sample_n).visibility_pct_of_total
              = (gapOf (run_monte_carlo df defn u sampler n_sim
                  (some p_det_equal) none sample_n)).map
                  (fun g => round1 ((og - g) / og * 100))
            ∧ (decompose_racial_gap df defn u sampler n_sim
                sample_n).documentation_pct_of_total
              = (gapOf (run_monte_carlo df defn u sampler n_sim
                  none (some p_cert_equal) sample_n)).map
                  (fun g => round1 ((og - g) / og * 100)))))
    ∧ (gapOf (run_monte_carlo df defn u sampler n_sim none none sample_n) = none →
        (decompose_racial_gap df defn u sampler n_sim sample_n).algorithm_pct_of_total
            = none
          ∧ (decompose_racial_gap df defn u sampler n_sim sample_n).visibility_pct_of_total
            = none
          ∧ (decompose_racial_gap df defn u sampler n_sim
              sample_n).documentation_pct_of_total = none) := by
  constructor
  · intro og hog
    constructor
    · intro hle
      simp only [decompose_racial_gap, hog]
      have : ¬ (0 < og) := not_lt.mpr hle
      simp [this]
    · intro hpos
      simp only [decompose_racial_gap, hog]
      simp [hpos]
  · intro hnone
    simp only [decompose_racial_gap, hnone]
    simp

/-- C9 amended witness: the concrete run `res9` has observed gap 100 > 0 and
its algorithm percent-of-total field equals the rounded quotient form. -/
theorem c9_amended_pct_fields_witness :
    gapOf (run_monte_carlo [testIndB, testIndW] testDefn testU testSampler 3
        none none 5) = some 100
      ∧ (0 : ℚ) < 100
      ∧ res9.algorithm_pct_of_total
        = (gapOf (run_monte_carlo [testIndB, testIndW] testDefn testU testSampler 3
            (some p_det_equal) (some p_cert_equal) 5)).map
            (fun g => round1 (g / 100 * 100)) := by
  refine ⟨by decide, by decide, ?_⟩
  exact (((c9_amended_pct_fields [testIndB, testIndW] testDefn testU testSampler
    3 5).1 100 (by decide)).2 (by decide)).1

/-!
## C7: monotonicity in the certification probability
-/

lemma simulate_snd_indep (ind : Individual) (defn : FrailtyDefinition)
    (u : ℕ → ℚ) (i : ℕ) (pdo : Option ProbTable) (pco pco' : Option ProbTable) :
    (simulate_exemption_single ind defn u i pdo pco).2
      = (simulate_exemption_single ind defn u i pdo pco').2 := by
  simp only [simulate_exemption_single, apply_ite Prod.snd]

lemma simulate_fst_mono (ind : Individual) (defn : FrailtyDefinition)
    (u : ℕ → ℚ) (i : ℕ) (pdo : Option ProbTable) {pco pco' : Option ProbTable}
    (hle : pCertUsed pco ind.race_eth ≤ pCertUsed pco' ind.race_eth)
    (h : (simulate_exemption_single ind defn u i pdo pco).1 = true) :
    (simulate_exemption_single ind defn u i pdo pco').1 = true := by
  simp only [simulate_exemption_single, apply_ite Prod.fst] at h ⊢
  split_ifs at h ⊢ <;>
    first
      | rfl
      | exact h
      | (simp only [decide_eq_true_iff] at h ⊢; exact lt_of_lt_of_le h hle)

lemma drawLoop_snd_indep (ind : Individual) (defn : FrailtyDefinition)
    (u : ℕ → ℚ) (pdo : Option ProbTable) (pco pco' : Option ProbTable) :
    ∀ n i, (drawLoop ind defn u pdo pco n i).2 = (drawLoop ind defn u pdo pco' n i).2 := by
  intro n
  induction n with
  | zero => intro i; rfl
  | succ n ih =>
    intro i
    simp only [drawLoop]
    rw [simulate_snd_indep ind defn u i pdo pco pco', ih]

lemma drawLoop_fst_mono (ind : Individual) (defn : FrailtyDefinition)
    (u : ℕ → ℚ) (pdo : Option ProbTable) {pco pco' : Option ProbTable}
    (hle : pCertUsed pco ind.race_eth ≤ pCertUsed pco' ind.race_eth) :
    ∀ n i, List.Forall₂ (fun a b => a = true → b = true)
      (drawLoop ind defn u pdo pco n i).1 (drawLoop ind defn u pdo pco' n i).1 := by
  intro n
  induction n with
  | zero => intro i; exact List.Forall₂.nil
  | succ n ih =>
    intro i
    simp only [drawLoop]
    refine List.Forall₂.cons (fun h => simulate_fst_mono ind defn u i pdo hle h) ?_
    rw [simulate_snd_indep ind defn u i pdo pco pco']
    exact ih _

lemma individualDraws_snd_indep (ind : Individual) (defn : FrailtyDefinition)
    (u : ℕ → ℚ) (pdo : Option ProbTable) (pco pco' : Option ProbTable) (n_sim i : ℕ) :
    (individualDraws ind defn u pdo pco n_sim i).2
      = (individualDraws ind defn u pdo pco' n_sim i).2 := by
  simp only [individualDraws]
  split_ifs
  · exact drawLoop_snd_indep ind defn u pdo pco pco' n_sim i
  · rfl

lemma individualDraws_fst_mono (ind : Individual) (defn : FrailtyDefinition)
    (u : ℕ → ℚ) (pdo : Option ProbTable) {pco pco' : Option ProbTable}
    (hle : pCertUsed pco ind.race_eth ≤ pCertUsed pco' ind.race_eth) (n_sim i : ℕ) :
    List.Forall₂ (fun a b => a = true → b = true)
      (individualDraws ind defn u pdo pco n_sim i).1
      (individualDraws ind defn u pdo pco' n_sim i).1 := by
  simp only [individualDraws]
  split_ifs
  · exact drawLoop_fst_mono ind defn u pdo hle n_sim i
  · exact List.forall₂_same.mpr fun x _ hx => hx

lemma groupDraws_snd_indep (defn : FrailtyDefinition) (u : ℕ → ℚ)
    (pdo : Option ProbTable) (pco pco' : Option ProbTable) (n_sim : ℕ) :
    ∀ (inds : List Individual) (i : ℕ),
      (groupDraws defn u pdo pco n_sim inds i).2
        = (groupDraws defn u pdo pco' n_sim inds i).2 := by
  intro inds
  induction inds with
  | nil => intro i; rfl
  | cons ind rest ih =>
    intro i
    simp only [groupDraws]
    rw [individualDraws_snd_indep ind defn u pdo pco pco' n_sim i, ih]

lemma groupDraws_fst_mono (defn : FrailtyDefinition) (u : ℕ → ℚ)
    (pdo : Option ProbTable) {pco pco' : Option ProbTable} (n_sim : ℕ) :
    ∀ (inds : List Individual) (i : ℕ),
      (∀ ind ∈ inds, pCertUsed pco ind.race_eth ≤ pCertUsed pco' ind.race_eth) →
      List.Forall₂ (List.Forall₂ (fun a b => a = true → b = true))
        (groupDraws defn u pdo pco n_sim inds i).1
        (groupDraws defn u pdo pco' n_sim inds i).1 := by
  intro inds
  induction inds with
  | nil => intro i _; exact List.Forall₂.nil
  | cons ind rest ih =>
    intro i h
    simp only [groupDraws]
    refine List.Forall₂.cons
      (individualDraws_fst_mono ind defn u pdo (h ind (List.mem_cons_self _ _)) n_sim i) ?_
    rw [individualDraws_snd_indep ind defn u pdo pco pco' n_sim i]
    exact ih _ fun x hx => h x (List.mem_cons_of_mem _ hx)

lemma getD_imp : ∀ {r r' : List Bool},
    List.Forall₂ (fun a b => a = true → b = true) r r' →
    ∀ j, r.getD j false = true → r'.getD j false = true := by
  intro r r' hrel
  induction hrel with
  | nil => intro j h; simp [List.getD] at h
  | cons h₁ h₂ ih =>
    intro j
    cases j with
    | zero => simpa using h₁
    | succ j => simpa using ih j

lemma zipSum_mono {dr dr' : List (List Bool)}
    (hrel : List.Forall₂ (List.Forall₂ (fun a b => a = true → b = true)) dr dr') :
    ∀ (ws : List ℚ), (∀ w ∈ ws, 0 ≤ w) → ∀ j,
    ((dr.zip ws).map fun p => if p.1.getD j false then p.2 else 0).sum
      ≤ ((dr'.zip ws).map fun p => if p.1.getD j false then p.2 else 0).sum := by
  induction hrel with
  | nil => intro ws hw j; simp
  | @cons a b l₁ l₂ h₁ h₂ ih =>
    intro ws hw j
    cases ws with
    | nil => simp
    | cons w ws' =>
      simp only [List.zip_cons_cons, List.map_cons, List.sum_cons]
      have hw0 : 0 ≤ w := hw w (List.mem_cons_self _ _)
      refine add_le_add ?_ (ih ws' (fun x hx => hw x (List.mem_cons_of_mem _ hx)) j)
      by_cases hb : a.getD j false = true
      · rw [if_pos hb, if_pos (getD_imp h₁ j hb)]
      · rw [if_neg hb]
        split_ifs <;> simp [hw0]

lemma weighted_mean_mono {dr dr' : List (List Bool)}
    (hrel : List.Forall₂ (List.Forall₂ (fun a b => a = true → b = true)) dr dr')
    (ws : List ℚ) (hw : ∀ w ∈ ws, 0 ≤ w) (n_sim : ℕ) :
    listMean (weightedExemptBySim dr ws n_sim)
      ≤ listMean (weightedExemptBySim dr' ws n_sim) := by
  have hW : (0:ℚ) ≤ ws.sum := List.sum_nonneg hw
  have hsum : (weightedExemptBySim dr ws n_sim).sum
      ≤ (weightedExemptBySim dr' ws n_sim).sum := by
    simp only [weightedExemptBySim]
    refine List.sum_le_sum fun j _ => ?_
    rw [div_eq_mul_inv, div_eq_mul_inv]
    exact mul_le_mul_of_nonneg_right (zipSum_mono hrel ws hw j) (inv_nonneg.mpr hW)
  have hlen : (weightedExemptBySim dr ws n_sim).length
      = (weightedExemptBySim dr' ws n_sim).length := by
    simp [weightedExemptBySim]
  simp only [listMean, hlen]
  rw [div_eq_mul_inv, div_eq_mul_inv]
  exact mul_le_mul_of_nonneg_right hsum
    (inv_nonneg.mpr (by positivity))

lemma sampleOf_mem (df : List Individual)
    (sampler : List Individual → ℕ → List Individual)
    (hs : ∀ l n x, x ∈ sampler l n → x ∈ l)
    (sample_n : ℕ) (race : String) :
    ∀ x ∈ sampleOf df sampler sample_n race, x ∈ df ∧ x.race_eth = race := by
  intro x hx
  simp only [sampleOf] at hx
  split_ifs at hx with h
  · have hx' := hs _ _ x hx
    have := List.mem_filter.mp hx'
    exact ⟨this.1, by simpa using this.2⟩
  · have := List.mem_filter.mp hx
    exact ⟨this.1, by simpa using this.2⟩

lemma runMonteCarloAux_mono (df : List Individual) (defn : FrailtyDefinition)
    (u : ℕ → ℚ) (sampler : List Individual → ℕ → List Individual)
    (n_sim : ℕ) (pdo : Option ProbTable) (sample_n : ℕ)
    {t t' : ProbTable} (r : String)
    (hs : ∀ l n x, x ∈ sampler l n → x ∈ l)
    (hw : ∀ ind ∈ df, 0 ≤ weightOf ind)
    (hle : pCertUsed (some t) r ≤ pCertUsed (some t') r) :
    ∀ (races : List String) (i : ℕ),
    List.Forall₂ (fun row row' => row.race_eth = row'.race_eth
        ∧ (row.race_eth = r → row.simulated_exempt_pct ≤ row'.simulated_exempt_pct))
      (runMonteCarloAux df defn u sampler n_sim pdo (some t) sample_n races i)
      (runMonteCarloAux df defn u sampler n_sim pdo (some t') sample_n races i) := by
  intro races
  induction races with
  | nil => intro i; exact List.Forall₂.nil
  | cons race rest ih =>
    intro i
    simp only [runMonteCarloAux]
    refine List.Forall₂.cons ⟨rfl, ?_⟩ ?_
    · intro hrace
      show listMean (weightedExemptBySim _ _ _) * 100 ≤ listMean (weightedExemptBySim _ _ _) * 100
      refine mul_le_mul_of_nonneg_right ?_ (by norm_num)
      have hr2 : race = r := hrace
      refine weighted_mean_mono ?_ _ ?_ n_sim
      · refine groupDraws_fst_mono defn u pdo n_sim _ i fun ind hind => ?_
        have hmem := sampleOf_mem df sampler hs sample_n race ind hind
        rw [hmem.2, hr2]
        exact hle
      · intro w hwmem
        obtain ⟨ind, hind, rfl⟩ := List.mem_map.mp hwmem
        exact hw ind (sampleOf_mem df sampler hs sample_n race ind hind).1
    · rw [groupDraws_snd_indep defn u pdo (some t) (some t') n_sim
        (sampleOf df sampler sample_n race) i]
      exact ih _

/-- C7: for an ACTIVE ex-parte, certification-required state definition,
raising a race's certification-success probability (the probability
`simulate_one` actually uses for that race) while holding the individuals,
definition, detection overrides, draw count, sample cap and seeded
generators fixed never decreases that race's mean simulated-exemption rate
in the Monte Carlo aggregator's output (rows are compared pairwise; every
row keeps its race key). -/
theorem c7_cert_probability_monotone (df : List Individual)
    (defn : FrailtyDefinition) (u : ℕ → ℚ)
    (sampler : List Individual → ℕ → List Individual)
    (n_sim : ℕ) (pdo : Option ProbTable) (sample_n : ℕ)
    (t t' : ProbTable) (r : String)
    (_hactive : defn.ex_parte_determination = ExparteDetermination.ACTIVE)
    (_hcert : defn.requires_physician_cert = true)
    (hs : ∀ l n x, x ∈ sampler l n → x ∈ l)
    (hw : ∀ ind ∈ df, 0 ≤ weightOf ind)
    (hle : pCertUsed (some t) r ≤ pCertUsed (some t') r) :
    List.Forall₂ (fun row row' => row.race_eth = row'.race_eth
        ∧ (row.race_eth = r → row.simulated_exempt_pct ≤ row'.simulated_exempt_pct))
      (run_monte_carlo df defn u sampler n_sim pdo (some t) sample_n)
      (run_monte_carlo df defn u sampler n_sim pdo (some t') sample_n) :=
  runMonteCarloAux_mono df defn u sampler n_sim pdo sample_n r hs hw hle (racesOf df) 0

/-- C7 witness: one black individual under an ACTIVE, cert-required
definition; raising the black certification probability from 0.5 to 0.75. -/
theorem c7_cert_probability_monotone_witness :
    List.Forall₂ (fun row row' => row.race_eth = row'.race_eth
        ∧ (row.race_eth = "black" →
            row.simulated_exempt_pct ≤ row'.simulated_exempt_pct))
      (run_monte_carlo [testIndB] testCertDefn testU testSampler 3 none
        (some testCertLo) 5)
      (run_monte_carlo [testIndB] testCertDefn testU testSampler 3 none
        (some testCertHi) 5) :=
  c7_cert_probability_monotone [testIndB] testCertDefn testU testSampler 3 none 5
    testCertLo testCertHi "black" (by decide) (by decide)
    (fun _ _ _ h => h) (by decide) (by decide)

end MedicaidFrailty
